/-
Verification of the scenario-resolution and time-series transform engine of
the school-disease dashboard (src/src/Dashboard.jsx).

Shallow embedding conventions:
- JS numbers are modelled as exact rationals (ℚ); integer-valued results
  (Math.round / Math.ceil outputs) are ℤ.
- A CSV row is a sparse mapping from column name to an optional numeric
  value: `none` models a null / undefined / non-numeric cell (the code's
  `value != null && !isNaN(value)` test is `Option.isSome`, and
  `row[col] || 0` is `Option.getD 0`).
- `Math.round x` (JS semantics, half away towards +∞) is `⌊x + 1/2⌋`.
- `Array.prototype.sort` (stable in modern engines) is `List.mergeSort`.
- Strings handled by the filename parser are `List Char`; the code's regex
  searches (`String.prototype.match` with unanchored patterns of the shape
  literal-then-digits) are modelled as a leftmost scan for the literal
  followed by a maximal nonempty digit run.
-/
import Mathlib

namespace Dashboard

/-- JS `Math.round`: round half towards positive infinity. -/
def jsRound (q : ℚ) : ℤ := ⌊q + 1 / 2⌋

/-- One parsed CSV row: sparse mapping from column name to numeric value
(`none` = absent / null / non-numeric cell). -/
def Row : Type := String → Option ℚ

/-- `const ages = ['infant', 'preschool', 'child', 'adult', 'senior']` -/
def ages : List String := ["infant", "preschool", "child", "adult", "senior"]

/-- The column name `{disease}_{classType}_{age}_mean` (and the other
statistics) used throughout the transforms. -/
def colName (disease classType age stat : String) : String :=
  disease ++ "_" ++ classType ++ "_" ++ age ++ "_" ++ stat

/-- The code's row filter `row.day_mean != null && !isNaN(row.day_mean)`. -/
def hasDay (row : Row) : Bool := (row "day_mean").isSome

/-- `Math.round(row.day_mean) + 1`: the 1-indexed day of a row. -/
def dayOf (row : Row) : ℤ := jsRound ((row "day_mean").getD 0) + 1

/-- `row[columnName] || 0`: numeric cell value with 0 substituted for
absent cells. -/
def cellD (row : Row) (col : String) : ℚ := (row col).getD 0

/-- Output point of `prepareChartData`: `{day, infant, preschool, child,
adult, senior}`. -/
structure ChartPoint where
  day : ℤ
  infant : ℚ
  preschool : ℚ
  child : ℚ
  adult : ℚ
  senior : ℚ
  deriving DecidableEq, Repr

/-- The `ages.forEach` body of `prepareChartData`, unrolled over the fixed
five-element `ages` list. -/
def chartPointOf (disease classType : String) (row : Row) : ChartPoint where
  day := dayOf row
  infant := cellD row (colName disease classType "infant" "mean")
  preschool := cellD row (colName disease classType "preschool" "mean")
  child := cellD row (colName disease classType "child" "mean")
  adult := cellD row (colName disease classType "adult" "mean")
  senior := cellD row (colName disease classType "senior" "mean")

/-- `prepareChartData(data, disease, classType)` (Dashboard.jsx lines
867-884): filter rows with a numeric day, emit a per-age point with the +1
day offset, sort ascending by day. `none` models a missing (`!data`)
argument. -/
def prepareChartData (data : Option (List Row)) (disease classType : String) :
    List ChartPoint :=
  match data with
  | none => []
  | some rows =>
    ((rows.filter hasDay).map (chartPointOf disease classType)).mergeSort
      (fun a b => a.day ≤ b.day)

/-- The list of `row[col] || 0` values visited by the nested
`ages.forEach` / `data.forEach` loops of `getMaxValue` / `getSummaryStats`
(age-major order, exactly as the code iterates). -/
def allValues (rows : List Row) (disease classType : String) : List ℚ :=
  ages.flatMap (fun age => rows.map (fun row => cellD row (colName disease classType age "mean")))

/-- `getMaxValue(data, disease, classType)` (lines 886-898): running max
(from 0) of every age-mean cell, scaled by 1.1 and ceiled; 100 when `data`
is null. Note: the `!data` guard does not catch an empty rows array. -/
def getMaxValue (data : Option (List Row)) (disease classType : String) : ℤ :=
  match data with
  | none => 100
  | some rows =>
    let m := ages.foldl
      (fun m age => rows.foldl
        (fun m row =>
          let v := cellD row (colName disease classType age "mean")
          if v > m then v else m) m) 0
    ⌈m * (11 / 10 : ℚ)⌉

/-- The dashboard-level `maxValue` memo (lines 362-370): 100 when no
scenario is available, otherwise the running `Math.max` of each available
scenario's `getMaxValue`, starting from 100. -/
def dashboardMaxValue (availableScenarioKeys : List String)
    (dynamicsData : String → Option (List Row)) (disease classType : String) : ℤ :=
  if availableScenarioKeys.isEmpty then 100
  else availableScenarioKeys.foldl
    (fun maxSoFar key => max maxSoFar (getMaxValue (dynamicsData key) disease classType)) 100

/-- Result of `getSummaryStats`. -/
structure Stats where
  peak : ℤ
  total : ℤ
  avg : ℤ
  deriving DecidableEq, Repr

/-- `getSummaryStats(data, disease, classType)` (lines 900-922): running
peak / total / count over every (age, row) pair — `count` is incremented
for every pair whether or not the column is present. -/
def getSummaryStats (data : Option (List Row)) (disease classType : String) : Stats :=
  match data with
  | none => ⟨0, 0, 0⟩
  | some rows =>
    let s := ages.foldl
      (fun s age => rows.foldl
        (fun (s : ℚ × ℚ × ℕ) row =>
          let v := cellD row (colName disease classType age "mean")
          ((if v > s.1 then v else s.1), s.2.1 + v, s.2.2 + 1)) s) (0, 0, 0)
    ⟨jsRound s.1, jsRound s.2.1,
      if s.2.2 > 0 then jsRound (s.2.1 / (s.2.2 : ℚ)) else 0⟩

/-- Output point of `buildUncertaintySeries` (the redundant
`ci: [lower, upper]` array is determined by the other fields and omitted). -/
structure CIPoint where
  day : ℤ
  mean : ℚ
  lower : ℚ
  upper : ℚ
  deriving DecidableEq, Repr

/-- The per-row accumulation of `buildUncertaintySeries`: sums of the
`_mean` / `_p2_5` / `_p97_5` columns over the fixed `ages` list. -/
def ciPointOf (disease classType : String) (row : Row) : CIPoint where
  day := dayOf row
  mean := (ages.map (fun age => cellD row (colName disease classType age "mean"))).sum
  lower := (ages.map (fun age => cellD row (colName disease classType age "p2_5"))).sum
  upper := (ages.map (fun age => cellD row (colName disease classType age "p97_5"))).sum

/-- `buildUncertaintySeries(data, disease, classType)` (lines 924-949). -/
def buildUncertaintySeries (data : Option (List Row)) (disease classType : String) :
    List CIPoint :=
  match data with
  | none => []
  | some rows =>
    ((rows.filter hasDay).map (ciPointOf disease classType)).mergeSort
      (fun a b => a.day ≤ b.day)

/-- `buildDailyHospitalSeriesByAge(data, disease, age)` (lines 951-971):
per-day mean / ci_lower / ci_upper of the single age group's
`new_hospitalizations` column family, sorted by day. -/
def buildDailyHospitalSeriesByAge (data : Option (List Row)) (disease age : String) :
    List CIPoint :=
  match data with
  | none => []
  | some rows =>
    ((rows.filter hasDay).map (fun row =>
      { day := dayOf row
        mean := cellD row (disease ++ "_new_hospitalizations_" ++ age ++ "_mean")
        lower := cellD row (disease ++ "_new_hospitalizations_" ++ age ++ "_ci_lower")
        upper := cellD row (disease ++ "_new_hospitalizations_" ++ age ++ "_ci_upper") })).mergeSort
      (fun a b => a.day ≤ b.day)

/-- Output point of `buildAgeSeries`. -/
structure AgePoint where
  day : ℤ
  value : ℚ
  deriving DecidableEq, Repr

/-- `buildAgeSeries(data, disease, classType, age)` (lines 990-999): note
that, unlike the other transforms, the result is NOT sorted — it preserves
the input row order. -/
def buildAgeSeries (data : Option (List Row)) (disease classType age : String) :
    List AgePoint :=
  match data with
  | none => []
  | some rows =>
    (rows.filter hasDay).map (fun row =>
      { day := dayOf row
        value := cellD row (colName disease classType age "mean") })

/-- One named series handed to `mergeSeriesByDay`:
`{key, data: [{day, value}, ...]}`. -/
structure Series where
  key : String
  data : List AgePoint
  deriving DecidableEq, Repr

/-- One merged output row: the day plus the per-series fields of the JS
object, as an ordered association list (JS object property order:
first-set position is kept, later sets overwrite in place). -/
structure MRow where
  day : ℤ
  fields : List (String × ℚ)
  deriving DecidableEq, Repr

/-- `dayMap.get(point.day)[key] = point.value`: set property `key` on a JS
object modelled as an ordered association list. -/
def setField (fs : List (String × ℚ)) (k : String) (v : ℚ) : List (String × ℚ) :=
  if fs.any (fun p => p.1 = k) then fs.map (fun p => if p.1 = k then (k, v) else p)
  else fs ++ [(k, v)]

/-- First-match property read on a merged row's field list. -/
def getF : List (String × ℚ) → String → Option ℚ
  | [], _ => none
  | p :: rest, k => if p.1 = k then some p.2 else getF rest k

/-- The body of the inner `data.forEach` of `mergeSeriesByDay`: insert one
point of series `k` into the day map (a JS `Map`, i.e. an insertion-ordered
association list of rows keyed by day). -/
def insertPoint (m : List MRow) (k : String) (d : ℤ) (v : ℚ) : List MRow :=
  if m.any (fun r => r.day = d) then
    m.map (fun r => if r.day = d then ⟨r.day, setField r.fields k v⟩ else r)
  else m ++ [⟨d, [(k, v)]⟩]

/-- The day map built by the two nested `forEach` loops of
`mergeSeriesByDay`. -/
def buildDayMap (seriesList : List Series) : List MRow :=
  seriesList.foldl
    (fun m s => s.data.foldl (fun m p => insertPoint m s.key p.day p.value) m) []

/-- `mergeSeriesByDay(seriesList)` (lines 1001-1014): outer join of the
named series on the day key, sorted ascending by day. -/
def mergeSeriesByDay (seriesList : List Series) : List MRow :=
  (buildDayMap seriesList).mergeSort (fun a b => a.day ≤ b.day)

/-- The last value written for `(day d, series key k)` while processing
`seriesList` in order (series in list order, points in series order):
the value `mergeSeriesByDay` retains for that field. -/
def lastVal (seriesList : List Series) (d : ℤ) (k : String) : Option ℚ :=
  seriesList.foldl
    (fun acc s => s.data.foldl
      (fun acc p => if s.key = k ∧ p.day = d then some p.value else acc) acc) none

/- ## Parameter selections and the exclusivity controller -/

/-- Option set of the `studentStudentContact` parameter
(`intensityOptions`). -/
inductive Intensity
  | base | low | medium | high
  deriving DecidableEq, Repr, Fintype

/-- Option set of the two testing parameters (`coverageOptions`). -/
inductive Coverage
  | none | low | medium | high
  deriving DecidableEq, Repr, Fintype

/-- `parameterSelections` state: one entry per parameter definition. -/
structure Selections where
  studentStudentContact : Intensity
  covidTesting : Coverage
  fluTesting : Coverage
  deriving DecidableEq, Repr, Fintype

/-- `parameterDefaults`: `{studentStudentContact: 'base',
covidTesting: 'none', fluTesting: 'none'}`. -/
def parameterDefaults : Selections := ⟨.base, .none, .none⟩

/-- One `setParameter` event: the select `onChange` for one of the three
parameter ids. -/
inductive ParamUpdate
  | setContact (v : Intensity)
  | setCovid (v : Coverage)
  | setFlu (v : Coverage)
  deriving DecidableEq, Repr

/-- The `setParameterSelections` updater (lines 764-781): write the changed
parameter and reset the other two to their defaults in the same
transition. -/
def applyUpdate (prev : Selections) (u : ParamUpdate) : Selections :=
  match u with
  | .setContact v =>
      { prev with studentStudentContact := v, covidTesting := .none, fluTesting := .none }
  | .setCovid v =>
      { prev with covidTesting := v, studentStudentContact := .base, fluTesting := .none }
  | .setFlu v =>
      { prev with fluTesting := v, studentStudentContact := .base, covidTesting := .none }

/-- Number of parameters holding a non-default value. -/
def nonDefaultCount (s : Selections) : ℕ :=
  (if s.studentStudentContact ≠ .base then 1 else 0) +
  (if s.covidTesting ≠ .none then 1 else 0) +
  (if s.fluTesting ≠ .none then 1 else 0)

/- ## Filename parsing (scenario catalog builder) -/

/-- `parseInt` on a captured digit string. -/
def digitsToNat (ds : List Char) : ℕ :=
  ds.foldl (fun n c => n * 10 + (c.toNat - 48)) 0

/-- `filename.replace(/\.csv$/, '')`: drop a trailing `.csv`. -/
def stripCsv (s : List Char) : List Char :=
  if (".csv".data).isSuffixOf s then s.take (s.length - 4) else s

/-- `name.replace(/^.*\//, '')`: greedy `.*` removes everything up to and
including the last `/`. -/
def stripPath (s : List Char) : List Char :=
  if '/' ∈ s then (s.reverse.takeWhile (fun c => c ≠ '/')).reverse else s

/-- Try to match pattern `<lit>(\d+)` at the start of `s`: the literal
must be a prefix and be followed by at least one digit; the capture is the
maximal digit run (greedy `\d+`). -/
def digitsAfter (lit s : List Char) : Option (List Char) :=
  if lit.isPrefixOf s then
    let ds := (s.drop lit.length).takeWhile Char.isDigit
    if ds.isEmpty then none else some ds
  else none

/-- Unanchored regex search for `<lit>(\d+)`: leftmost position wins, as
in `String.prototype.match`. -/
def searchPat (lit : List Char) : List Char → Option (List Char)
  | [] => none
  | c :: rest =>
    match digitsAfter lit (c :: rest) with
    | some ds => some ds
    | none => searchPat lit rest

/-- Unanchored search for `dynamics_df_test_(covid|flu)_(\d+)`: at each
position the `covid` alternative is tried before `flu`, as the regex
engine does. -/
def searchTest : List Char → Option (Bool × List Char)
  | [] => none
  | c :: rest =>
    match digitsAfter ("dynamics_df_test_covid_".data) (c :: rest) with
    | some ds => some (true, ds)
    | none =>
      match digitsAfter ("dynamics_df_test_flu_".data) (c :: rest) with
      | some ds => some (false, ds)
      | none => searchTest rest

/-- `testing: { disease, percentage }` field of a descriptor. -/
structure TestingInfo where
  disease : Option String
  percentage : Option ℕ
  deriving DecidableEq, Repr

/-- The object shape returned by `parseCsvFilename`. -/
structure Descriptor where
  type : String
  label : String
  shortLabel : String
  badge : String
  color : String
  contactReduction : Option ℕ
  testing : TestingInfo
  vaccination : Option ℕ
  deriving DecidableEq, Repr

/-- The baseline descriptor literal of `parseCsvFilename`. -/
def baselineDescriptor : Descriptor where
  type := "baseline"
  label := "Baseline (No Additional Mitigations)"
  shortLabel := "Baseline"
  badge := "Base"
  color := "#0ea5e9"
  contactReduction := none
  testing := ⟨none, none⟩
  vaccination := none

/-- The contact-reduction descriptor built for a captured percentage. -/
def contactDescriptor (percentage : ℕ) : Descriptor where
  type := "contact"
  label := "Contact Reduction " ++ toString percentage ++ "%"
  shortLabel := "Contact " ++ toString percentage ++ "%"
  badge := "Contact " ++ toString percentage ++ "%"
  color := "#8b5cf6"
  contactReduction := some percentage
  testing := ⟨none, none⟩
  vaccination := none

/-- The testing descriptor built for a captured disease and percentage
(`covid` = `true` in the capture of `searchTest`). -/
def testingDescriptor (covid : Bool) (percentage : ℕ) : Descriptor where
  type := "testing"
  label := (if covid then "COVID-19" else "Influenza") ++ " Testing " ++ toString percentage ++ "%"
  shortLabel := (if covid then "COVID" else "Flu") ++ " Test " ++ toString percentage ++ "%"
  badge := "Test " ++ (if covid then "COVID" else "Flu") ++ " " ++ toString percentage ++ "%"
  color := "#f97316"
  contactReduction := none
  testing := ⟨some (if covid then "covid" else "flu"), some percentage⟩
  vaccination := none

/-- The unknown-kind fallback descriptor: the label is the raw (unstripped)
filename. -/
def unknownDescriptor (filename : String) : Descriptor where
  type := "unknown"
  label := filename
  shortLabel := filename
  badge := "Unknown"
  color := "#64748b"
  contactReduction := none
  testing := ⟨none, none⟩
  vaccination := none

/-- `parseCsvFilename(filename)` (lines 31-94): strip extension and path,
then try baseline / contact / testing patterns in order, falling back to
an unknown descriptor. -/
def parseCsvFilename (filename : String) : Descriptor :=
  let name := stripPath (stripCsv filename.data)
  if name = "dynamics_df_base".data then baselineDescriptor
  else
    match searchPat ("dynamics_df_contact_".data) name with
    | some ds => contactDescriptor (digitsToNat ds)
    | none =>
      match searchTest name with
      | some (covid, ds) => testingDescriptor covid (digitsToNat ds)
      | none => unknownDescriptor filename

/- ## Scenario catalog and resolver -/

/-- `availableCsvFiles` (lines 97-108). -/
def availableCsvFiles : List String :=
  ["dynamics_df_base.csv",
   "dynamics_df_contact_10.csv",
   "dynamics_df_contact_20.csv",
   "dynamics_df_contact_30.csv",
   "dynamics_df_test_covid_1.csv",
   "dynamics_df_test_covid_5.csv",
   "dynamics_df_test_covid_10.csv",
   "dynamics_df_test_flu_1.csv",
   "dynamics_df_test_flu_5.csv",
   "dynamics_df_test_flu_10.csv"]

/-- `filename.replace(/\.csv$/, '').replace(/^dynamics_df_/, '')`: the
derived catalog key. -/
def keyOf (filename : String) : List Char :=
  let s := stripCsv filename.data
  if ("dynamics_df_".data).isPrefixOf s then s.drop 12 else s

/-- One catalog entry value: the parsed descriptor plus the two source
paths added by `generateScenarioConfig`. -/
structure ScenarioEntry where
  desc : Descriptor
  dynamicsPath : String
  weeklyHospPath : Option String
  deriving DecidableEq, Repr

/-- `generateScenarioConfig()` (lines 111-123): ordered key → entry
mapping (JS object with non-numeric string keys iterates in insertion
order). -/
def scenarioConfig : List (List Char × ScenarioEntry) :=
  availableCsvFiles.map (fun filename =>
    (keyOf filename,
     { desc := parseCsvFilename filename
       dynamicsPath := "/data/" ++ filename
       weeklyHospPath := none }))

/-- One element of `scenarioOptions`. -/
structure ScenarioOption where
  id : List Char
  label : String
  type : String
  order : ℕ
  deriving DecidableEq, Repr

/-- Code-unit lexicographic comparison of labels, modelling
`localeCompare` on the catalog's ASCII labels. -/
def labelLe (a b : String) : Bool := a ≤ b

/-- `scenarioOptions` (lines 128-140): catalog entries tagged with a group
rank (baseline 0, contact 1, testing 2, unknown 3) and stably sorted by
(rank, label). -/
def scenarioOptions : List ScenarioOption :=
  (scenarioConfig.map (fun e =>
    { id := e.1
      label := e.2.desc.label
      type := e.2.desc.type
      order := if e.2.desc.type = "baseline" then 0
               else if e.2.desc.type = "contact" then 1
               else if e.2.desc.type = "testing" then 2 else 3 })).mergeSort
    (fun a b => a.order < b.order ∨ (a.order = b.order ∧ labelLe a.label b.label))

/-- `testingMap = { none: null, low: 1, medium: 5, high: 10 }`. -/
def testingMap : Coverage → Option ℕ
  | .none => none
  | .low => some 1
  | .medium => some 5
  | .high => some 10

/-- `contactMap = { low: 10, medium: 20, high: 30 }` (no entry for
`base`; that lookup yields `undefined`, which matches no descriptor). -/
def contactMap : Intensity → Option ℕ
  | .base => none
  | .low => some 10
  | .medium => some 20
  | .high => some 30

/-- The `for...of Object.entries(scenarioConfig)` scan for a testing
descriptor with the given disease and percentage. -/
def findTestingKey (disease : String) (target : Option ℕ) : Option (List Char) :=
  (scenarioConfig.find? (fun e =>
    e.2.desc.testing.disease = some disease ∧ e.2.desc.testing.percentage = target)).map
    (fun e => e.1)

/-- The scan for a `baseline`-typed descriptor. -/
def findBaselineKey : Option (List Char) :=
  (scenarioConfig.find? (fun e => e.2.desc.type = "baseline")).map (fun e => e.1)

/-- The scan for a contact-reduction descriptor with the given
percentage (`config.contactReduction === targetPercentage`). -/
def findContactKey (target : Option ℕ) : Option (List Char) :=
  (scenarioConfig.find? (fun e => e.2.desc.contactReduction = target)).map (fun e => e.1)

/-- The `selectedScenario` memo (lines 301-357): testing matches first
(COVID then flu), then the contact-reduction branch, then the baseline
fallback, then `scenarioOptions[0]?.id || 'base'`. -/
def selectedScenario (sel : Selections) : List Char :=
  let t1 := if sel.covidTesting ≠ Coverage.none then
      findTestingKey "covid" (testingMap sel.covidTesting) else none
  let t2 := if sel.fluTesting ≠ Coverage.none then
      findTestingKey "flu" (testingMap sel.fluTesting) else none
  let t3 := match sel.studentStudentContact with
    | .base => findBaselineKey
    | i => findContactKey (contactMap i)
  let t4 := findBaselineKey
  let fallback := match scenarioOptions.head? with
    | some o => if o.id = [] then "base".data else o.id
    | none => "base".data
  ((((t1.or t2).or t3).or t4).getD fallback)

/- ## Claim-side (spec-worded) resolver, for the refinement statement of C1 -/

/-- The claim's testing option table `low→1, medium→5, high→10` (only
consulted for non-default options). -/
def claimTestingPercent : Coverage → ℕ
  | .none => 0
  | .low => 1
  | .medium => 5
  | .high => 10

/-- The claim's contact option table `low→10, medium→20, high→30` (only
consulted for non-baseline options). -/
def claimContactPercent : Intensity → ℕ
  | .base => 0
  | .low => 10
  | .medium => 20
  | .high => 30

/-- The resolver as the claim words it: covid-testing step, then
flu-testing step, then baseline-if-contact-default, then contact step,
then the baseline key, then the first display-ordered entry. -/
def claimResolve (sel : Selections) : List Char :=
  let covidStep : Option (List Char) :=
    if sel.covidTesting ≠ Coverage.none then
      (scenarioConfig.find? (fun e => e.2.desc.testing.disease = some "covid" ∧
        e.2.desc.testing.percentage = some (claimTestingPercent sel.covidTesting))).map
        (fun e => e.1)
    else none
  let fluStep : Option (List Char) :=
    if sel.fluTesting ≠ Coverage.none then
      (scenarioConfig.find? (fun e => e.2.desc.testing.disease = some "flu" ∧
        e.2.desc.testing.percentage = some (claimTestingPercent sel.fluTesting))).map
        (fun e => e.1)
    else none
  let contactStep : Option (List Char) :=
    if sel.studentStudentContact = Intensity.base then findBaselineKey
    else
      (scenarioConfig.find? (fun e =>
        e.2.desc.contactReduction = some (claimContactPercent sel.studentStudentContact))).map
        (fun e => e.1)
  match covidStep with
  | some k => k
  | none =>
    match fluStep with
    | some k => k
    | none =>
      match contactStep with
      | some k => k
      | none =>
        match findBaselineKey with
        | some k => k
        | none => ((scenarioOptions.head?.map (fun o => o.id)).getD "base".data)

/- ## Concrete example inputs used by the claims -/

/-- The example row `{day_mean: 0, covid_symptomatic_child_mean: 5}` of the
spec's §8 test property. -/
def exampleRow : Row := fun s =>
  if s = "day_mean" then some 0
  else if s = "covid_symptomatic_child_mean" then some 5 else none

/-- A row whose only cell is `day_mean = n`. -/
def rowWithDay (n : ℚ) : Row := fun s => if s = "day_mean" then some n else none

/-- A row whose only cell is `covid_symptomatic_child_mean = v`. -/
def singleColRow (v : ℚ) : Row := fun s =>
  if s = "covid_symptomatic_child_mean" then some v else none

/-- The CI-band point as the spec words it: per-day sums of the five age
groups' mean / lower / upper columns, with the +1 day offset. -/
def ciBandPointSpec (disease classType : String) (row : Row) : CIPoint where
  day := jsRound ((row "day_mean").getD 0) + 1
  mean := cellD row (colName disease classType "infant" "mean") +
    cellD row (colName disease classType "preschool" "mean") +
    cellD row (colName disease classType "child" "mean") +
    cellD row (colName disease classType "adult" "mean") +
    cellD row (colName disease classType "senior" "mean")
  lower := cellD row (colName disease classType "infant" "p2_5") +
    cellD row (colName disease classType "preschool" "p2_5") +
    cellD row (colName disease classType "child" "p2_5") +
    cellD row (colName disease classType "adult" "p2_5") +
    cellD row (colName disease classType "senior" "p2_5")
  upper := cellD row (colName disease classType "infant" "p97_5") +
    cellD row (colName disease classType "preschool" "p97_5") +
    cellD row (colName disease classType "child" "p97_5") +
    cellD row (colName disease classType "adult" "p97_5") +
    cellD row (colName disease classType "senior" "p97_5")

/- ## Event view of mergeSeriesByDay, used in its correctness statement -/

/-- The `(series key, day, value)` writes performed by the two nested
`forEach` loops of `mergeSeriesByDay`, in execution order. -/
def events (seriesList : List Series) : List (String × ℤ × ℚ) :=
  seriesList.flatMap (fun s => s.data.map (fun p => (s.key, p.day, p.value)))

/-- First-match row lookup by day in the day map, with its fields read by
`getF` (`none` when no row for that day exists). -/
def gat (m : List MRow) (d : ℤ) (k : String) : Option ℚ :=
  match m.find? (fun r => r.day = d) with
  | none => none
  | some r => getF r.fields k

/- # Theorems -/

/-- Output of a stable sort by an integer key is pairwise ordered by that
key. -/
lemma pairwise_mergeSort_key {α : Type} (key : α → ℤ) (l : List α) :
    (l.mergeSort (fun a b => key a ≤ key b)).Pairwise (fun a b => key a ≤ key b) := by
  have h := @List.sorted_mergeSort α (fun a b => decide (key a ≤ key b))
    (by intro a b c hab hbc; simp at hab hbc ⊢; omega)
    (by intro a b; simp; omega) l
  exact h.imp (fun h => by simpa using h)

/-- `Math.round` is the identity on integers. -/
lemma jsRound_intCast (n : ℤ) : jsRound (n : ℚ) = n := by
  unfold jsRound
  rw [Int.floor_eq_iff]
  constructor <;> norm_num

lemma jsRound_zero : jsRound 0 = 0 := by simpa using jsRound_intCast 0

lemma jsRound_one : jsRound 1 = 1 := by simpa using jsRound_intCast 1

lemma jsRound_five : jsRound 5 = 5 := by simpa using jsRound_intCast 5

/- ## C2 -/

/-- Every single update leaves at most one parameter non-default. -/
lemma nonDefaultCount_applyUpdate_le (s : Selections) (u : ParamUpdate) :
    nonDefaultCount (applyUpdate s u) ≤ 1 := by
  cases u <;> simp [applyUpdate, nonDefaultCount] <;> split <;> simp

/-- The at-most-one-non-default bound is preserved by any update
sequence. -/
lemma nonDefaultCount_run_le (us : List ParamUpdate) :
    ∀ s : Selections, nonDefaultCount s ≤ 1 →
      nonDefaultCount (us.foldl applyUpdate s) ≤ 1 := by
  induction us with
  | nil => intro s h; exact h
  | cons u us ih => intro s _; exact ih _ (nonDefaultCount_applyUpdate_le s u)

/-- C2: starting from the default parameter state, after every sequence of
`setParameter` updates at most one of the three parameters is non-default;
each single update writes the changed parameter and resets the other two
to their defaults (`base` / `none` / `none`) in the same transition. -/
theorem C2_exclusivity_invariant :
    (∀ us : List ParamUpdate,
        nonDefaultCount (us.foldl applyUpdate parameterDefaults) ≤ 1) ∧
    (∀ (s : Selections) (v : Intensity),
        applyUpdate s (.setContact v) = ⟨v, .none, .none⟩) ∧
    (∀ (s : Selections) (v : Coverage),
        applyUpdate s (.setCovid v) = ⟨.base, v, .none⟩) ∧
    (∀ (s : Selections) (v : Coverage),
        applyUpdate s (.setFlu v) = ⟨.base, .none, v⟩) := by
  refine ⟨fun us => nonDefaultCount_run_le us _ ?_, fun s v => rfl, fun s v => rfl,
    fun s v => rfl⟩
  simp [parameterDefaults, nonDefaultCount]

/- ## C4 -/

/-- C4: `prepareChartData` emits one point per row with a numeric day
indicator (a permutation of the per-row map), its output is sorted
ascending by day, and on the spec's example row
`{day_mean: 0, covid_symptomatic_child_mean: 5}` it produces
`{day: 1, infant: 0, preschool: 0, child: 5, adult: 0, senior: 0}`. -/
theorem C4_prepareTimeSeries :
    (∀ (rows : List Row) (disease classType : String),
        List.Perm (prepareChartData (some rows) disease classType)
          ((rows.filter hasDay).map (chartPointOf disease classType))) ∧
    (∀ (rows : List Row) (disease classType : String),
        (prepareChartData (some rows) disease classType).Pairwise
          (fun a b => a.day ≤ b.day)) ∧
    prepareChartData (some [exampleRow]) "covid" "symptomatic" =
      [{ day := 1, infant := 0, preschool := 0, child := 5, adult := 0, senior := 0 }] := by
  refine ⟨fun rows disease classType => List.mergeSort_perm _ _,
    fun rows disease classType => ?_, ?_⟩
  · have := pairwise_mergeSort_key ChartPoint.day
      ((rows.filter hasDay).map (chartPointOf disease classType))
    simpa [prepareChartData] using this
  · simp [prepareChartData, chartPointOf, hasDay, exampleRow, cellD, colName, dayOf,
      jsRound_zero]

/- ## C9 -/

/-- C9: each `buildUncertaintySeries` point carries, for the row's
1-indexed day, the sums across all five age groups of the row's `_mean`,
`_p2_5` and `_p97_5` columns, absent cells contributing 0. -/
theorem C9_buildCIBand :
    ∀ (rows : List Row) (disease classType : String),
      List.Perm (buildUncertaintySeries (some rows) disease classType)
        ((rows.filter hasDay).map (ciBandPointSpec disease classType)) := by
  intro rows disease classType
  have hfn : ciPointOf disease classType = ciBandPointSpec disease classType := by
    funext row
    simp [ciPointOf, ciBandPointSpec, ages, dayOf]
    refine ⟨by ring, by ring, by ring⟩
  rw [← hfn]
  exact List.mergeSort_perm _ _

/- ## C7 -/

/-- C7 counterexample: `buildAgeSeries` does not sort — with the input
rows in descending day order its output days are `[2, 1]`. -/
theorem C7_buildAgeSeries_counterexample :
    ¬ (buildAgeSeries (some [rowWithDay 1, rowWithDay 0]) "covid" "symptomatic"
        "child").Pairwise (fun a b => a.day ≤ b.day) := by
  have h : buildAgeSeries (some [rowWithDay 1, rowWithDay 0]) "covid" "symptomatic"
      "child" = [{ day := 2, value := 0 }, { day := 1, value := 0 }] := by
    simp [buildAgeSeries, hasDay, rowWithDay, cellD, colName, dayOf, jsRound_zero,
      jsRound_one]
  rw [h]
  simp [List.pairwise_cons]

/-- C7 amended: `prepareChartData`, `buildUncertaintySeries` and
`buildDailyHospitalSeriesByAge` emit their points in ascending day order
for every input row order; `buildAgeSeries` itself preserves the input row
order (it is the per-row map, unsorted), and the merged chart data built
from it by `mergeSeriesByDay` is again sorted ascending by day. -/
theorem C7_series_sortedness :
    (∀ (rows : List Row) (disease classType : String),
        (prepareChartData (some rows) disease classType).Pairwise
          (fun a b => a.day ≤ b.day)) ∧
    (∀ (rows : List Row) (disease classType : String),
        (buildUncertaintySeries (some rows) disease classType).Pairwise
          (fun a b => a.day ≤ b.day)) ∧
    (∀ (rows : List Row) (disease age : String),
        (buildDailyHospitalSeriesByAge (some rows) disease age).Pairwise
          (fun a b => a.day ≤ b.day)) ∧
    (∀ seriesList : List Series,
        (mergeSeriesByDay seriesList).Pairwise (fun a b => a.day ≤ b.day)) ∧
    (∀ (rows : List Row) (disease classType age : String),
        buildAgeSeries (some rows) disease classType age =
          (rows.filter hasDay).map (fun row =>
            { day := dayOf row
              value := cellD row (colName disease classType age "mean") })) := by
  refine ⟨fun rows disease classType => ?_, fun rows disease classType => ?_,
    fun rows disease age => ?_, fun seriesList => ?_,
    fun rows disease classType age => rfl⟩
  · have := pairwise_mergeSort_key ChartPoint.day
      ((rows.filter hasDay).map (chartPointOf disease classType))
    simpa [prepareChartData] using this
  · have := pairwise_mergeSort_key CIPoint.day
      ((rows.filter hasDay).map (ciPointOf disease classType))
    simpa [buildUncertaintySeries] using this
  · exact pairwise_mergeSort_key CIPoint.day _
  · exact pairwise_mergeSort_key MRow.day _

/- ## C5 -/

/-- The code's running-max step is `max`. -/
lemma maxStep (m v : ℚ) : (if v > m then v else m) = max m v := by
  rcases le_or_lt v m with h | h
  · rw [if_neg (not_lt.mpr h), max_eq_left h]
  · rw [if_pos h, max_eq_right h.le]

/-- A fold whose step never decreases the accumulator is bounded below by
its initial value. -/
lemma le_foldl_of_le_step {γ β : Type} [Preorder γ] (g : γ → β → γ)
    (hg : ∀ m x, m ≤ g m x) : ∀ (l : List β) (b : γ), b ≤ l.foldl g b := by
  intro l
  induction l with
  | nil => intro b; exact le_refl b
  | cons x xs ih => intro b; exact le_trans (hg b x) (ih (g b x))

/-- A running max dominates the value of every visited element. -/
lemma mem_le_foldl_max {γ β : Type} [LinearOrder γ] (f : β → γ) (l : List β) (x : β)
    (hx : x ∈ l) : ∀ b : γ, f x ≤ l.foldl (fun m y => max m (f y)) b := by
  induction l with
  | nil => cases hx
  | cons y ys ih =>
    intro b
    rcases List.mem_cons.mp hx with h | h
    · subst h
      exact le_trans (le_max_right b (f x))
        (le_foldl_of_le_step _ (fun m z => le_max_left m (f z)) ys (max b (f x)))
    · exact ih h (max b (f y))

/-- `getMaxValue` on present data is the ceiling of 1.1 times the nested
running max. -/
lemma getMaxValue_eq_ceil (rows : List Row) (disease classType : String) :
    getMaxValue (some rows) disease classType =
      ⌈(ages.foldl
          (fun m age => rows.foldl
            (fun m row => max m (cellD row (colName disease classType age "mean"))) m) 0) *
        (11 / 10 : ℚ)⌉ := by
  have h : ∀ age : String,
      (fun (m : ℚ) row =>
        let v := cellD row (colName disease classType age "mean")
        if v > m then v else m) =
      (fun (m : ℚ) row => max m (cellD row (colName disease classType age "mean"))) := by
    intro age
    funext m row
    exact maxStep m _
  simp only [getMaxValue, h]

/-- C5 counterexample: on an empty (but present) rows array `getMaxValue`
returns 0, which is less than 100 — the `!data` guard only catches a null
argument, not empty data. -/
theorem C5_getMaxValue_counterexample :
    getMaxValue (some []) "covid" "symptomatic" = 0 ∧
      ¬ (100 : ℤ) ≤ getMaxValue (some []) "covid" "symptomatic" := by
  have h : getMaxValue (some []) "covid" "symptomatic" = 0 := by
    simp [getMaxValue, ages]
  exact ⟨h, by rw [h]; decide⟩

/-- C5 amended: `getMaxValue` returns 100 on a null argument and always
dominates every observed age-mean cell (the 1.1-scaled ceiled running
max); the value-100 floor holds not for `getMaxValue` itself but for the
dashboard-level `maxValue`, which takes `Math.max` with initial value
100. -/
theorem C5_maxValue :
    (∀ disease classType : String, getMaxValue none disease classType = 100) ∧
    (∀ (disease classType : String) (rows : List Row) (row : Row) (age : String),
        row ∈ rows → age ∈ ages →
        cellD row (colName disease classType age "mean") ≤
          ((getMaxValue (some rows) disease classType : ℤ) : ℚ)) ∧
    (∀ (keys : List String) (dyn : String → Option (List Row)) (disease classType : String),
        (100 : ℤ) ≤ dashboardMaxValue keys dyn disease classType) := by
  refine ⟨fun disease classType => rfl, ?_, ?_⟩
  · intro disease classType rows row age hrow hage
    rw [getMaxValue_eq_ceil]
    set cell : String → Row → ℚ := fun a r => cellD r (colName disease classType a "mean")
      with hcell
    set g : ℚ → String → ℚ := fun m a => rows.foldl (fun m r => max m (cell a r)) m
      with hgdef
    have hstep : ∀ (m : ℚ) (a : String), m ≤ g m a :=
      fun m a => le_foldl_of_le_step _ (fun m r => le_max_left _ _) rows m
    have hvM : cell age row ≤ ages.foldl g 0 := by
      obtain ⟨pre, post, hsplit⟩ := List.append_of_mem hage
      rw [hsplit, List.foldl_append, List.foldl_cons]
      exact le_trans (mem_le_foldl_max (cell age) rows row hrow _)
        (le_foldl_of_le_step g hstep post _)
    have hM0 : (0 : ℚ) ≤ ages.foldl g 0 := le_foldl_of_le_step g hstep ages 0
    exact le_trans hvM (le_trans
      (le_mul_of_one_le_right hM0 (by norm_num)) (Int.le_ceil _))
  · intro keys dyn disease classType
    unfold dashboardMaxValue
    split
    · exact le_refl 100
    · exact le_foldl_of_le_step _ (fun m k => le_max_left _ _) keys 100

/-- C5 witness: the amended bound at a concrete input. -/
theorem C5_maxValue_witness :
    cellD (singleColRow 5) (colName "covid" "symptomatic" "child" "mean") ≤
      ((getMaxValue (some [singleColRow 5]) "covid" "symptomatic" : ℤ) : ℚ) :=
  C5_maxValue.2.1 "covid" "symptomatic" [singleColRow 5] (singleColRow 5) "child"
    (by simp) (by simp [ages])

/- ## C6 -/

/-- One row's worth of the peak/total/count accumulation. -/
lemma rows_fold_triple (f : Row → ℚ) (rows : List Row) (p t : ℚ) (n : ℕ) :
    rows.foldl (fun (s : ℚ × ℚ × ℕ) row =>
        ((if f row > s.1 then f row else s.1), s.2.1 + f row, s.2.2 + 1)) (p, t, n) =
      ((rows.map f).foldl max p, t + (rows.map f).sum, n + rows.length) := by
  induction rows generalizing p t n with
  | nil => simp
  | cons r rs ih =>
    simp only [List.foldl_cons, List.map_cons, List.sum_cons, List.length_cons]
    rw [ih, maxStep]
    simp only [Prod.mk.injEq]
    refine ⟨trivial, by ring, by omega⟩

/-- The full nested peak/total/count accumulation of `getSummaryStats`. -/
lemma nested_fold_triple (disease classType : String) (rows : List Row) :
    ∀ (ags : List String) (p t : ℚ) (n : ℕ),
      ags.foldl (fun s age => rows.foldl
          (fun (s : ℚ × ℚ × ℕ) row =>
            let v := cellD row (colName disease classType age "mean")
            ((if v > s.1 then v else s.1), s.2.1 + v, s.2.2 + 1)) s) (p, t, n) =
        ((ags.flatMap (fun age => rows.map
            (fun row => cellD row (colName disease classType age "mean")))).foldl max p,
         t + (ags.flatMap (fun age => rows.map
            (fun row => cellD row (colName disease classType age "mean")))).sum,
         n + ags.length * rows.length) := by
  intro ags
  induction ags with
  | nil => intro p t n; simp
  | cons a as ih =>
    intro p t n
    simp only [List.foldl_cons, List.flatMap_cons, List.foldl_append, List.sum_append,
      List.length_cons]
    rw [rows_fold_triple, ih]
    simp only [Prod.mk.injEq]
    refine ⟨trivial, by ring, by ring⟩

/-- `getSummaryStats` on present data: peak is the rounded running max of
all (age, row) cells, total their rounded sum, and avg the rounded mean
over 5·|rows| cells. -/
lemma getSummaryStats_char (disease classType : String) (rows : List Row) :
    getSummaryStats (some rows) disease classType =
      { peak := jsRound ((allValues rows disease classType).foldl max 0)
        total := jsRound ((allValues rows disease classType).sum)
        avg := if 0 < rows.length then
            jsRound ((allValues rows disease classType).sum / ((5 * rows.length : ℕ) : ℚ))
          else 0 } := by
  simp only [getSummaryStats]
  rw [nested_fold_triple]
  simp only [allValues, zero_add]
  have hlen : ages.length = 5 := rfl
  rw [hlen]
  by_cases h : 0 < rows.length
  · simp [h, Nat.pos_iff_ne_zero]
  · simp at h
    simp [h]

/-- C6 counterexample: on a single row whose only cell is
`covid_symptomatic_child_mean = 5`, the stats are peak 5, total 5 but
avg 1 (= round(5/5), the count being 5 age groups × 1 row), so peak, avg
and total are not all equal to the rounded value. -/
theorem C6_summaryStats_counterexample :
    getSummaryStats (some [singleColRow 5]) "covid" "symptomatic" =
      { peak := 5, total := 5, avg := 1 } ∧ (1 : ℤ) ≠ 5 := by
  constructor
  · rw [getSummaryStats_char]
    have hav : allValues [singleColRow 5] "covid" "symptomatic" = [0, 0, 5, 0, 0] := by
      simp [allValues, ages, singleColRow, cellD, colName]
    rw [hav]
    have hmax : ([0, 0, 5, 0, 0] : List ℚ).foldl max 0 = 5 := by norm_num [List.foldl]
    have hsum : ([0, 0, 5, 0, 0] : List ℚ).sum = 5 := by norm_num
    rw [hmax, hsum]
    norm_num [jsRound_five]
    exact jsRound_one
  · decide

/-- C6 amended: null data and empty data both give zero stats; in general
peak is the rounded max over all (row, age) values (0-substituted), total
their rounded sum, and avg the rounded total over 5·|rows| pairs; a single
row with a single nonnegative column `v` therefore gives peak = total =
round(v) but avg = round(v / 5). -/
theorem C6_summaryStats :
    (∀ disease classType : String, getSummaryStats none disease classType = ⟨0, 0, 0⟩) ∧
    (∀ disease classType : String,
        getSummaryStats (some []) disease classType = ⟨0, 0, 0⟩) ∧
    (∀ (disease classType : String) (rows : List Row),
        getSummaryStats (some rows) disease classType =
          { peak := jsRound ((allValues rows disease classType).foldl max 0)
            total := jsRound ((allValues rows disease classType).sum)
            avg := if 0 < rows.length then
                jsRound ((allValues rows disease classType).sum / ((5 * rows.length : ℕ) : ℚ))
              else 0 }) ∧
    (∀ v : ℚ, 0 ≤ v →
        getSummaryStats (some [singleColRow v]) "covid" "symptomatic" =
          { peak := jsRound v, total := jsRound v, avg := jsRound (v / 5) }) := by
  refine ⟨fun disease classType => rfl, ?_, fun d c rows => getSummaryStats_char d c rows, ?_⟩
  · intro disease classType
    rw [getSummaryStats_char]
    simp [allValues, ages, jsRound_zero]
  · intro v hv
    rw [getSummaryStats_char]
    have hav : allValues [singleColRow v] "covid" "symptomatic" = [0, 0, v, 0, 0] := by
      simp [allValues, ages, singleColRow, cellD, colName]
    rw [hav]
    have hmax : ([0, 0, v, 0, 0] : List ℚ).foldl max 0 = v := by
      simp [List.foldl]
      exact hv
    have hsum : ([0, 0, v, 0, 0] : List ℚ).sum = v := by simp
    rw [hmax, hsum]
    norm_num

/-- C6 witness: the single-row case at the concrete value 5. -/
theorem C6_summaryStats_witness :
    getSummaryStats (some [singleColRow 5]) "covid" "symptomatic" =
      { peak := jsRound 5, total := jsRound 5, avg := jsRound (5 / 5) } :=
  C6_summaryStats.2.2.2 5 (by norm_num)

/- ## C1 -/

/-- C1: the resolver follows the claim's documented priority order (it
coincides with the claim-worded `claimResolve` on every selection state
over the built-in catalog), and the selections
`{contact: medium, covidTesting: none, fluTesting: none}` resolve to the
key `contact_20`. -/
theorem C1_resolver :
    (∀ sel : Selections, selectedScenario sel = claimResolve sel) ∧
    selectedScenario ⟨.medium, .none, .none⟩ = "contact_20".data := by
  constructor
  · intro sel
    rcases sel with ⟨c, cv, fl⟩
    cases c <;> cases cv <;> cases fl <;> rfl
  · decide

/- ## C3 -/

/-- `<lit>(\d+)` matches at the start of `<lit> ++ <digits>` and captures
the whole digit run. -/
lemma digitsAfter_append (lit ds : List Char) (hne : ds ≠ [])
    (hd : ∀ c ∈ ds, c.isDigit) : digitsAfter lit (lit ++ ds) = some ds := by
  unfold digitsAfter
  rw [if_pos (by simp [List.isPrefixOf_iff_prefix])]
  rw [List.drop_left, List.takeWhile_eq_self_iff.mpr hd]
  simp [hne]

/-- A pattern match at position 0 decides the unanchored search. -/
lemma searchPat_of_head (lit s ds : List Char) (h : digitsAfter lit s = some ds)
    (hs : s ≠ []) : searchPat lit s = some ds := by
  cases s with
  | nil => exact absurd rfl hs
  | cons c rest => unfold searchPat; rw [h]

/-- A covid-testing match at position 0 decides the test search. -/
lemma searchTest_of_covid (s ds : List Char)
    (h : digitsAfter ("dynamics_df_test_covid_".data) s = some ds) (hs : s ≠ []) :
    searchTest s = some (true, ds) := by
  cases s with
  | nil => exact absurd rfl hs
  | cons c rest => unfold searchTest; rw [h]

/-- A flu-testing match at position 0 (with the covid alternative failing
there) decides the test search. -/
lemma searchTest_of_flu (s ds : List Char)
    (hc : digitsAfter ("dynamics_df_test_covid_".data) s = none)
    (hf : digitsAfter ("dynamics_df_test_flu_".data) s = some ds) (hs : s ≠ []) :
    searchTest s = some (false, ds) := by
  cases s with
  | nil => exact absurd rfl hs
  | cons c rest => unfold searchTest; rw [hc, hf]

/-- A character mismatch below both lengths refutes the prefix test, for
any continuation. -/
lemma not_prefixOf_of_mismatch (l₁ l₂ ds : List Char) (i : ℕ)
    (h₁ : i < l₁.length) (h₂ : i < l₂.length)
    (hne : l₁.get ⟨i, h₁⟩ ≠ l₂.get ⟨i, h₂⟩) : ¬ (l₁.isPrefixOf (l₂ ++ ds) = true) := by
  rw [List.isPrefixOf_iff_prefix]
  rintro ⟨t, ht⟩
  apply hne
  simp only [List.get_eq_getElem]
  have hi₁ : i < (l₁ ++ t).length := by simp; omega
  have hi₂ : i < (l₂ ++ ds).length := by simp; omega
  have e1 : (l₁ ++ t)[i] = l₁[i] := List.getElem_append_left h₁
  have e2 : (l₂ ++ ds)[i] = l₂[i] := List.getElem_append_left h₂
  have e3 : (l₁ ++ t)[i] = (l₂ ++ ds)[i] := by simp only [ht]
  rw [← e1, e3, e2]

/-- Extend a bounded take-mismatch condition to all offsets. -/
lemma miss_of_bounded (lit cs : List Char) (hne : lit ≠ [])
    (h : ∀ n < cs.length, lit ≠ ((cs.drop n).take lit.length)) :
    ∀ n, lit ≠ ((cs.drop n).take lit.length) := by
  intro n
  rcases lt_or_ge n cs.length with hn | hn
  · exact h n hn
  · rw [List.drop_eq_nil_of_le hn]
    simpa using hne

/-- A digit-free literal never matches inside an all-digit string. -/
lemma searchPat_digits_none (lit : List Char) (hne : lit ≠ [])
    (hnd : ∀ c ∈ lit, ¬ c.isDigit = true) :
    ∀ ds : List Char, (∀ c ∈ ds, c.isDigit) → searchPat lit ds = none := by
  intro ds
  induction ds with
  | nil => intro _; rfl
  | cons c rest ih =>
    intro hd
    have hda : digitsAfter lit (c :: rest) = none := by
      unfold digitsAfter
      rw [if_neg]
      cases lit with
      | nil => exact absurd rfl hne
      | cons a l₂ =>
        simp only [List.isPrefixOf]
        intro hab
        rcases Bool.and_eq_true .. |>.mp hab with ⟨hab1, _⟩
        have : a = c := by simpa using hab1
        exact hnd a (List.mem_cons_self a l₂) (this ▸ hd c (List.mem_cons_self c rest))
    unfold searchPat
    rw [hda]
    exact ih (fun x hx => hd x (List.mem_cons_of_mem c hx))

/-- If a digit-free literal is not a take-prefix of `cs` at any offset, it
is no prefix of `cs ++ <digits>`: a partial overlap would put a digit
inside the literal. -/
lemma not_prefixOf_append_of_miss (lit cs ds : List Char)
    (hnd : ∀ c ∈ lit, ¬ c.isDigit = true) (hd : ∀ c ∈ ds, c.isDigit)
    (hmiss : ∀ n, lit ≠ ((cs.drop n).take lit.length)) :
    ¬ (lit.isPrefixOf (cs ++ ds) = true) := by
  rw [List.isPrefixOf_iff_prefix]
  intro hpre
  rcases le_or_lt lit.length cs.length with hle | hlt
  · have htake := List.prefix_iff_eq_take.mp hpre
    have hsub : lit.length - cs.length = 0 := by omega
    rw [List.take_append_eq_append_take, hsub, List.take_zero, List.append_nil] at htake
    exact hmiss 0 (by simpa using htake)
  · obtain ⟨t, ht⟩ := hpre
    have hlen : lit.length + t.length = cs.length + ds.length := by
      have := congrArg List.length ht
      simpa using this
    have hdsne : 0 < ds.length := by omega
    have hi₁ : cs.length < lit.length := hlt
    have hi₂ : cs.length < (lit ++ t).length := by simp; omega
    have e1 : (lit ++ t)[cs.length] = lit[cs.length] := List.getElem_append_left hi₁
    have hi₃ : cs.length < (cs ++ ds).length := by simp; omega
    have e2 : (cs ++ ds)[cs.length] = ds[0] := by
      rw [List.getElem_append_right (Nat.le_refl _)]
      congr 1
      omega
    have e3 : (lit ++ t)[cs.length] = (cs ++ ds)[cs.length] := by simp only [ht]
    have : lit[cs.length] = ds[0] := by rw [← e1, e3, e2]
    have hdig := hd (ds[0]) (List.getElem_mem hdsne)
    have hndig := hnd (lit[cs.length]) (List.getElem_mem hi₁)
    rw [this] at hndig
    exact hndig hdig

/-- The unanchored search for a digit-free literal fails on
`cs ++ <digits>` when the literal occurs at no offset of `cs`. -/
lemma searchPat_append_none (lit : List Char) (hne : lit ≠ [])
    (hnd : ∀ c ∈ lit, ¬ c.isDigit = true) :
    ∀ (cs ds : List Char), (∀ c ∈ ds, c.isDigit) →
      (∀ n, lit ≠ ((cs.drop n).take lit.length)) →
      searchPat lit (cs ++ ds) = none := by
  intro cs
  induction cs with
  | nil => intro ds hd _; exact searchPat_digits_none lit hne hnd ds hd
  | cons c cs₂ ih =>
    intro ds hd hmiss
    have hda : digitsAfter lit ((c :: cs₂) ++ ds) = none := by
      unfold digitsAfter
      rw [if_neg (not_prefixOf_append_of_miss lit (c :: cs₂) ds hnd hd hmiss)]
    rw [List.cons_append]
    unfold searchPat
    rw [List.cons_append] at hda
    rw [hda]
    exact ih ds hd (fun n => by simpa using hmiss (n + 1))

/-- A name ending in a digit does not end in `.csv`. -/
lemma stripCsv_append_digits (pre s : List Char) (h : s ≠ [])
    (hd : ∀ c ∈ s, c.isDigit) : stripCsv (pre ++ s) = pre ++ s := by
  unfold stripCsv
  rw [if_neg]
  rw [List.isSuffixOf_iff_suffix]
  rintro ⟨t, ht⟩
  have h1 : (t ++ ".csv".data).getLast? = some 'v' := by
    rw [List.getLast?_append_of_ne_nil t (by decide)]
    decide
  have h2 : (pre ++ s).getLast? = s.getLast? := List.getLast?_append_of_ne_nil pre h
  rw [ht, h2] at h1
  have hv : 'v' ∈ s := List.mem_of_getLast?_eq_some h1
  have := hd 'v' hv
  simp at this

/-- Path stripping is the identity on slash-free names. -/
lemma stripPath_no_slash (s : List Char) (h : ('/' ∈ s) = False) : stripPath s = s := by
  unfold stripPath
  rw [if_neg (by simp [h])]

lemma no_slash_append (lit ds : List Char) (hlit : ('/' ∈ lit) = False)
    (hd : ∀ c ∈ ds, c.isDigit) : ('/' ∈ lit ++ ds) = False := by
  simp only [eq_iff_iff, iff_false]
  intro hmem
  rcases List.mem_append.mp hmem with hm | hm
  · rw [hlit] at hm
    exact hm
  · have := hd '/' hm
    simp at this

lemma length_ne_of_append_digits (lit ds base : List Char) (hlen : base.length < lit.length)
    (hds : ds ≠ []) : lit ++ ds ≠ base := by
  intro h
  have := congrArg List.length h
  simp at this
  have : 0 < ds.length := List.length_pos.mpr hds
  omega

/-- Grammar case `dynamics_df_contact_{p}`. -/
lemma parseCsvFilename_contact (ds : List Char) (hne : ds ≠ [])
    (hd : ∀ c ∈ ds, c.isDigit) :
    parseCsvFilename (String.mk ("dynamics_df_contact_".data ++ ds)) =
      contactDescriptor (digitsToNat ds) := by
  unfold parseCsvFilename
  have hdata : (String.mk ("dynamics_df_contact_".data ++ ds)).data =
      "dynamics_df_contact_".data ++ ds := rfl
  rw [hdata, stripCsv_append_digits _ _ hne hd,
    stripPath_no_slash _ (no_slash_append _ _ (by decide) hd)]
  rw [if_neg (length_ne_of_append_digits _ _ _ (by decide) hne)]
  rw [searchPat_of_head _ _ ds (digitsAfter_append _ _ hne hd)
    (List.append_ne_nil_of_left_ne_nil (by decide) ds)]

/-- Grammar case `dynamics_df_test_covid_{p}`. -/
lemma parseCsvFilename_test_covid (ds : List Char) (hne : ds ≠ [])
    (hd : ∀ c ∈ ds, c.isDigit) :
    parseCsvFilename (String.mk ("dynamics_df_test_covid_".data ++ ds)) =
      testingDescriptor true (digitsToNat ds) := by
  unfold parseCsvFilename
  have hdata : (String.mk ("dynamics_df_test_covid_".data ++ ds)).data =
      "dynamics_df_test_covid_".data ++ ds := rfl
  rw [hdata, stripCsv_append_digits _ _ hne hd,
    stripPath_no_slash _ (no_slash_append _ _ (by decide) hd)]
  rw [if_neg (length_ne_of_append_digits _ _ _ (by decide) hne)]
  rw [searchPat_append_none "dynamics_df_contact_".data (by decide) (by decide)
    ("dynamics_df_test_covid_".data) ds hd
    (miss_of_bounded _ _ (by decide) (by decide))]
  rw [searchTest_of_covid _ ds (digitsAfter_append _ _ hne hd)
    (List.append_ne_nil_of_left_ne_nil (by decide) ds)]

/-- Grammar case `dynamics_df_test_flu_{p}`. -/
lemma parseCsvFilename_test_flu (ds : List Char) (hne : ds ≠ [])
    (hd : ∀ c ∈ ds, c.isDigit) :
    parseCsvFilename (String.mk ("dynamics_df_test_flu_".data ++ ds)) =
      testingDescriptor false (digitsToNat ds) := by
  unfold parseCsvFilename
  have hdata : (String.mk ("dynamics_df_test_flu_".data ++ ds)).data =
      "dynamics_df_test_flu_".data ++ ds := rfl
  rw [hdata, stripCsv_append_digits _ _ hne hd,
    stripPath_no_slash _ (no_slash_append _ _ (by decide) hd)]
  rw [if_neg (length_ne_of_append_digits _ _ _ (by decide) hne)]
  rw [searchPat_append_none "dynamics_df_contact_".data (by decide) (by decide)
    ("dynamics_df_test_flu_".data) ds hd
    (miss_of_bounded _ _ (by decide) (by decide))]
  have hcov : digitsAfter ("dynamics_df_test_covid_".data)
      ("dynamics_df_test_flu_".data ++ ds) = none := by
    unfold digitsAfter
    rw [if_neg (not_prefixOf_of_mismatch _ _ ds 17 (by decide) (by decide) (by decide))]
  rw [searchTest_of_flu _ ds hcov (digitsAfter_append _ _ hne hd)
    (List.append_ne_nil_of_left_ne_nil (by decide) ds)]

/-- C3: identifiers of the fixed grammar parse to descriptors whose kind
and captured numbers round-trip (`dynamics_df_base` to baseline,
`dynamics_df_contact_{p}` to contact reduction `p`,
`dynamics_df_test_{covid|flu}_{p}` to testing `{disease, p}`), and any
filename on which no pattern fires degrades to an unknown descriptor
labelled with the raw filename — the total function never throws. -/
theorem C3_parseCsvFilename :
    (parseCsvFilename "dynamics_df_base" = baselineDescriptor) ∧
    (∀ ds : List Char, ds ≠ [] → (∀ c ∈ ds, c.isDigit) →
        parseCsvFilename (String.mk ("dynamics_df_contact_".data ++ ds)) =
          contactDescriptor (digitsToNat ds)) ∧
    (∀ ds : List Char, ds ≠ [] → (∀ c ∈ ds, c.isDigit) →
        parseCsvFilename (String.mk ("dynamics_df_test_covid_".data ++ ds)) =
          testingDescriptor true (digitsToNat ds)) ∧
    (∀ ds : List Char, ds ≠ [] → (∀ c ∈ ds, c.isDigit) →
        parseCsvFilename (String.mk ("dynamics_df_test_flu_".data ++ ds)) =
          testingDescriptor false (digitsToNat ds)) ∧
    (∀ filename : String,
        stripPath (stripCsv filename.data) ≠ "dynamics_df_base".data →
        searchPat ("dynamics_df_contact_".data) (stripPath (stripCsv filename.data)) = none →
        searchTest (stripPath (stripCsv filename.data)) = none →
        parseCsvFilename filename = unknownDescriptor filename) := by
  refine ⟨by decide, parseCsvFilename_contact, parseCsvFilename_test_covid,
    parseCsvFilename_test_flu, ?_⟩
  intro filename hb hc ht
  unfold parseCsvFilename
  rw [if_neg hb, hc, ht]

/-- C3 witness: the grammar cases at concrete percentages and the unknown
case at a concrete unrecognized filename. -/
theorem C3_parseCsvFilename_witness :
    parseCsvFilename (String.mk ("dynamics_df_contact_".data ++ "20".data)) =
      contactDescriptor (digitsToNat "20".data) ∧
    parseCsvFilename (String.mk ("dynamics_df_test_covid_".data ++ "10".data)) =
      testingDescriptor true (digitsToNat "10".data) ∧
    parseCsvFilename (String.mk ("dynamics_df_test_flu_".data ++ "5".data)) =
      testingDescriptor false (digitsToNat "5".data) ∧
    parseCsvFilename "weird_name.csv" = unknownDescriptor "weird_name.csv" :=
  ⟨C3_parseCsvFilename.2.1 "20".data (by decide) (by decide),
   C3_parseCsvFilename.2.2.1 "10".data (by decide) (by decide),
   C3_parseCsvFilename.2.2.2.1 "5".data (by decide) (by decide),
   C3_parseCsvFilename.2.2.2.2 "weird_name.csv" (by decide) (by decide) (by decide)⟩

/- ## C8 and C10: mergeSeriesByDay -/


lemma getF_map_replace_self (fs : List (String × ℚ)) (k : String) (v : ℚ) :
    getF (fs.map (fun p => if p.1 = k then (k, v) else p)) k =
      if fs.any (fun p => p.1 = k) then some v else none := by
  induction fs with
  | nil => rfl
  | cons p rest ih =>
    by_cases h : p.1 = k
    · simp [getF, h]
    · simp only [List.map_cons, if_neg h, List.any_cons]
      simp [getF, h, ih]
      split_ifs with h1 h2 <;> simp_all

lemma getF_map_replace_other (fs : List (String × ℚ)) (k k' : String) (v : ℚ)
    (h : k' ≠ k) :
    getF (fs.map (fun p => if p.1 = k then (k, v) else p)) k' = getF fs k' := by
  induction fs with
  | nil => rfl
  | cons p rest ih =>
    by_cases hp : p.1 = k
    · have h1 : ¬ (k = k') := fun hh => h hh.symm
      have h2 : ¬ (p.1 = k') := by rw [hp]; exact h1
      simp [getF, hp, h1, h2, ih]
    · simp only [List.map_cons, if_neg hp]
      by_cases hk : p.1 = k'
      · simp [getF, hk]
      · simp [getF, hk, ih]

lemma getF_none_of_not_any (fs : List (String × ℚ)) (k : String)
    (h : fs.any (fun p => p.1 = k) = false) : getF fs k = none := by
  induction fs with
  | nil => rfl
  | cons p rest ih =>
    rw [List.any_cons] at h
    rcases Bool.or_eq_false_iff.mp h with ⟨h1, h2⟩
    have hp : ¬ p.1 = k := by simpa using h1
    simp [getF, hp, ih h2]

lemma getF_append_last (fs : List (String × ℚ)) (k k' : String) (v : ℚ) :
    getF (fs ++ [(k, v)]) k' =
      match getF fs k' with
      | some w => some w
      | none => if k = k' then some v else none := by
  induction fs with
  | nil => simp [getF]
  | cons p rest ih =>
    by_cases hp : p.1 = k' <;> simp [getF, hp, ih]

lemma getF_setField (fs : List (String × ℚ)) (k k' : String) (v : ℚ) :
    getF (setField fs k v) k' = if k' = k then some v else getF fs k' := by
  unfold setField
  by_cases hany : fs.any (fun p => p.1 = k)
  · rw [if_pos hany]
    by_cases hk : k' = k
    · subst hk
      rw [getF_map_replace_self, if_pos hany, if_pos rfl]
    · rw [getF_map_replace_other fs k k' v hk, if_neg hk]
  · rw [if_neg hany]
    by_cases hk : k' = k
    · subst hk
      rw [getF_append_last, getF_none_of_not_any fs k' (Bool.eq_false_iff.mpr hany), if_pos rfl]
    · rw [getF_append_last]
      rcases hg : getF fs k' with _ | w
      · rw [if_neg hk]
        rw [if_neg (fun hh : k = k' => hk hh.symm)]
      · rw [if_neg hk]



lemma day_update (d : ℤ) (k : String) (v : ℚ) (r : MRow) :
    (if r.day = d then (⟨r.day, setField r.fields k v⟩ : MRow) else r).day = r.day := by
  split <;> rfl

lemma days_insertPoint (m : List MRow) (k : String) (d : ℤ) (v : ℚ) :
    (insertPoint m k d v).map MRow.day =
      if m.any (fun r => r.day = d) then m.map MRow.day else m.map MRow.day ++ [d] := by
  unfold insertPoint
  split
  · rw [List.map_map]
    exact List.map_congr_left (fun r _ => day_update d k v r)
  · simp

lemma any_day_iff (m : List MRow) (d : ℤ) :
    m.any (fun r => r.day = d) = true ↔ d ∈ m.map MRow.day := by
  rw [List.any_eq_true]
  simp

lemma nodup_days_insertPoint (m : List MRow) (k : String) (d : ℤ) (v : ℚ)
    (h : ((m.map MRow.day).Nodup)) : ((insertPoint m k d v).map MRow.day).Nodup := by
  rw [days_insertPoint]
  split
  · exact h
  · rename_i hany
    rw [List.nodup_append]
    refine ⟨h, List.nodup_singleton d, ?_⟩
    intro x hx
    simp only [List.mem_singleton]
    intro hxd
    subst hxd
    exact hany ((any_day_iff m x).mpr hx)

lemma find?_map_update (m : List MRow) (d : ℤ) (k : String) (v : ℚ) (e : ℤ) :
    (m.map (fun r => if r.day = d then (⟨r.day, setField r.fields k v⟩ : MRow) else r)).find?
      (fun r => r.day = e) =
    (m.find? (fun r => r.day = e)).map
      (fun r => if r.day = d then ⟨r.day, setField r.fields k v⟩ else r) := by
  induction m with
  | nil => rfl
  | cons r rest ih =>
    by_cases hr : r.day = e
    · rw [List.map_cons, List.find?_cons_of_pos _ (by simp only [day_update]; simp [hr]),
        List.find?_cons_of_pos _ (by simp [hr])]
      simp
    · rw [List.map_cons, List.find?_cons_of_neg _ (by simp only [day_update]; simp [hr]),
        List.find?_cons_of_neg _ (by simp [hr]), ih]



lemma gat_insertPoint (m : List MRow) (k : String) (d : ℤ) (v : ℚ) (e : ℤ) (k' : String) :
    gat (insertPoint m k d v) e k' =
      if e = d ∧ k' = k then some v else gat m e k' := by
  unfold insertPoint gat
  by_cases hany : m.any (fun r => r.day = d)
  · rw [if_pos hany, find?_map_update]
    rcases hf : m.find? (fun r => r.day = e) with _ | r <;> rw [hf]
    · by_cases he : e = d
      · subst he
        rcases (List.any_eq_true.mp hany) with ⟨r, hr, hrd⟩
        rw [List.find?_eq_none] at hf
        exact absurd (by simpa using hrd) (by simpa using hf r hr)
      · simp [he]
    · have hrd : r.day = e := by simpa using List.find?_some hf
      simp only [Option.map_some']
      by_cases he : e = d
      · subst he
        rw [if_pos hrd, getF_setField]
        simp
      · have hnr : ¬ (r.day = d) := by rw [hrd]; exact he
        rw [if_neg hnr]
        simp [he]
  · rw [if_neg hany, List.find?_append]
    by_cases he : e = d
    · subst he
      have hnone : m.find? (fun r => r.day = e) = none := by
        rw [List.find?_eq_none]
        intro r hr
        simp only [decide_eq_true_eq]
        intro hrd
        exact hany (List.any_eq_true.mpr ⟨r, hr, by simpa using hrd⟩)
      rw [hnone]
      simp only [Option.none_orElse]
      rw [List.find?_cons_of_pos _ (by simp)]
      by_cases hk : k' = k
      · simp [getF, hk]
      · simp [getF, hk, hnone]
        exact fun hh => hk hh.symm
    · rcases hf : m.find? (fun r => r.day = e) with _ | r <;> rw [hf]
      · simp only [Option.none_orElse]
        rw [List.find?_cons_of_neg _ (by simp; exact fun hh => he hh.symm)]
        simp [he]
      · simp [he]



lemma gat_foldl_insert (evs : List (String × ℤ × ℚ)) :
    ∀ (m : List MRow) (d : ℤ) (k : String),
      gat (evs.foldl (fun m e => insertPoint m e.1 e.2.1 e.2.2) m) d k =
        evs.foldl (fun acc e => if e.1 = k ∧ e.2.1 = d then some e.2.2 else acc)
          (gat m d k) := by
  induction evs with
  | nil => intro m d k; rfl
  | cons e rest ih =>
    intro m d k
    rw [List.foldl_cons, List.foldl_cons, ih, gat_insertPoint]
    have hiff : (d = e.2.1 ∧ k = e.1) ↔ (e.1 = k ∧ e.2.1 = d) := by
      constructor <;> rintro ⟨a, b⟩ <;> exact ⟨b.symm, a.symm⟩
    rw [if_congr hiff rfl rfl]

lemma mem_days_insertPoint (m : List MRow) (k : String) (d0 : ℤ) (v : ℚ) (d : ℤ) :
    d ∈ (insertPoint m k d0 v).map MRow.day ↔ d ∈ m.map MRow.day ∨ d = d0 := by
  rw [days_insertPoint]
  by_cases hany : m.any (fun r => r.day = d0)
  · rw [if_pos hany]
    constructor
    · exact Or.inl
    · rintro (h | h)
      · exact h
      · subst h
        exact (any_day_iff m d).mp hany
  · rw [if_neg hany]
    simp [List.mem_append]

lemma days_foldl_insert (evs : List (String × ℤ × ℚ)) :
    ∀ m : List MRow, (m.map MRow.day).Nodup →
      (((evs.foldl (fun m e => insertPoint m e.1 e.2.1 e.2.2) m).map MRow.day).Nodup ∧
       ∀ d : ℤ, d ∈ (evs.foldl (fun m e => insertPoint m e.1 e.2.1 e.2.2) m).map MRow.day ↔
         d ∈ m.map MRow.day ∨ ∃ e ∈ evs, e.2.1 = d) := by
  induction evs with
  | nil => intro m h; exact ⟨h, fun d => by simp⟩
  | cons e rest ih =>
    intro m h
    rw [List.foldl_cons]
    obtain ⟨ih1, ih2⟩ := ih (insertPoint m e.1 e.2.1 e.2.2)
      (nodup_days_insertPoint m e.1 e.2.1 e.2.2 h)
    refine ⟨ih1, fun d => ?_⟩
    rw [ih2 d, mem_days_insertPoint]
    simp only [List.mem_cons]
    constructor
    · rintro ((hm | hd) | ⟨e', he', hd'⟩)
      · exact Or.inl hm
      · exact Or.inr ⟨e, Or.inl rfl, hd.symm⟩
      · exact Or.inr ⟨e', Or.inr he', hd'⟩
    · rintro (hm | ⟨e', (rfl | he'), hd'⟩)
      · exact Or.inl (Or.inl hm)
      · exact Or.inl (Or.inr hd'.symm)
      · exact Or.inr ⟨e', he', hd'⟩



lemma buildDayMap_eq_events (seriesList : List Series) :
    buildDayMap seriesList =
      (events seriesList).foldl (fun m e => insertPoint m e.1 e.2.1 e.2.2) [] := by
  unfold buildDayMap events
  generalize ([] : List MRow) = m0
  induction seriesList generalizing m0 with
  | nil => rfl
  | cons s rest ih =>
    rw [List.foldl_cons, List.flatMap_cons, List.foldl_append, ih, List.foldl_map]

lemma lastVal_eq_events (seriesList : List Series) (d : ℤ) (k : String) :
    lastVal seriesList d k =
      (events seriesList).foldl
        (fun acc e => if e.1 = k ∧ e.2.1 = d then some e.2.2 else acc) none := by
  unfold lastVal events
  generalize (none : Option ℚ) = a0
  induction seriesList generalizing a0 with
  | nil => rfl
  | cons s rest ih =>
    rw [List.foldl_cons, List.flatMap_cons, List.foldl_append, ih, List.foldl_map]

lemma find?_day_of_mem (m : List MRow) (hnd : (m.map MRow.day).Nodup) (r : MRow)
    (hr : r ∈ m) : m.find? (fun x => x.day = r.day) = some r := by
  induction m with
  | nil => cases hr
  | cons x rest ih =>
    rcases List.mem_cons.mp hr with h | h
    · subst h
      exact List.find?_cons_of_pos _ (by simp)
    · rw [List.map_cons, List.nodup_cons] at hnd
      have hx : ¬ (x.day = r.day) := by
        intro hh
        exact hnd.1 (hh ▸ List.mem_map.mpr ⟨r, h, rfl⟩)
      rw [List.find?_cons_of_neg _ (by simpa using hx)]
      exact ih hnd.2 h

lemma foldl_lastWrite_isSome (evs : List (String × ℤ × ℚ)) (d : ℤ) (k : String) :
    ∀ a : Option ℚ,
      ((evs.foldl (fun acc e => if e.1 = k ∧ e.2.1 = d then some e.2.2 else acc) a).isSome
        ↔ a.isSome ∨ ∃ e ∈ evs, e.1 = k ∧ e.2.1 = d) := by
  induction evs with
  | nil => intro a; simp
  | cons e rest ih =>
    intro a
    rw [List.foldl_cons, ih]
    by_cases h : e.1 = k ∧ e.2.1 = d
    · simp [h]
    · simp only [if_neg h, List.mem_cons]
      constructor
      · rintro (ha | ⟨e', he', hp⟩)
        · exact Or.inl ha
        · exact Or.inr ⟨e', Or.inr he', hp⟩
      · rintro (ha | ⟨e', (rfl | he'), hp⟩)
        · exact Or.inl ha
        · exact absurd hp h
        · exact Or.inr ⟨e', he', hp⟩



lemma buildDayMap_nodup_days (seriesList : List Series) :
    ((buildDayMap seriesList).map MRow.day).Nodup := by
  rw [buildDayMap_eq_events]
  exact (days_foldl_insert _ [] (by simp)).1

lemma mem_days_buildDayMap (seriesList : List Series) (d : ℤ) :
    d ∈ (buildDayMap seriesList).map MRow.day ↔
      ∃ s ∈ seriesList, ∃ p ∈ s.data, p.day = d := by
  rw [buildDayMap_eq_events, (days_foldl_insert _ [] (by simp)).2 d]
  simp only [events, List.map_nil, List.not_mem_nil, false_or, List.mem_flatMap,
    List.mem_map]
  constructor
  · rintro ⟨e, ⟨s, hs, p, hp, rfl⟩, hd⟩
    exact ⟨s, hs, p, hp, hd⟩
  · rintro ⟨s, hs, p, hp, hd⟩
    exact ⟨(s.key, p.day, p.value), ⟨s, hs, p, hp, rfl⟩, hd⟩

lemma getF_buildDayMap (seriesList : List Series) (r : MRow)
    (hr : r ∈ buildDayMap seriesList) (k : String) :
    getF r.fields k = lastVal seriesList r.day k := by
  have hfind : (buildDayMap seriesList).find? (fun x => x.day = r.day) = some r :=
    find?_day_of_mem _ (buildDayMap_nodup_days seriesList) r hr
  have hg : gat (buildDayMap seriesList) r.day k = getF r.fields k := by
    unfold gat
    rw [hfind]
  rw [← hg, buildDayMap_eq_events, gat_foldl_insert, lastVal_eq_events]
  rfl

lemma merged_nodup_days (seriesList : List Series) :
    ((mergeSeriesByDay seriesList).map MRow.day).Nodup := by
  have hperm : List.Perm (mergeSeriesByDay seriesList) (buildDayMap seriesList) :=
    List.mergeSort_perm _ _
  exact ((hperm.map MRow.day).nodup_iff).mpr (buildDayMap_nodup_days seriesList)

lemma mem_merged_iff (seriesList : List Series) (r : MRow) :
    r ∈ mergeSeriesByDay seriesList ↔ r ∈ buildDayMap seriesList := by
  unfold mergeSeriesByDay
  exact List.mem_mergeSort



/-- C8: `mergeSeriesByDay` outer-joins the named series on day — exactly
one output row per distinct day (days are nodup and are exactly the days
occurring in some series), each row's field for key `k` holds the last
value written for `(day, k)` and is present iff a series named `k` has a
point at that day, the output is sorted ascending by day, and the example
join of days `[1,2,3]` with `[2,3,4]` yields rows for `[1,2,3,4]` with
only the contributing fields. -/
theorem C8_mergeByDay :
    (∀ seriesList : List Series,
        ((mergeSeriesByDay seriesList).map MRow.day).Nodup) ∧
    (∀ (seriesList : List Series) (d : ℤ),
        (∃ r ∈ mergeSeriesByDay seriesList, r.day = d) ↔
          ∃ s ∈ seriesList, ∃ p ∈ s.data, p.day = d) ∧
    (∀ (seriesList : List Series) (r : MRow), r ∈ mergeSeriesByDay seriesList →
        ∀ k : String, getF r.fields k = lastVal seriesList r.day k) ∧
    (∀ (seriesList : List Series) (r : MRow), r ∈ mergeSeriesByDay seriesList →
        ∀ k : String, (getF r.fields k).isSome ↔
          ∃ s ∈ seriesList, s.key = k ∧ ∃ p ∈ s.data, p.day = r.day) ∧
    (∀ seriesList : List Series,
        (mergeSeriesByDay seriesList).Pairwise (fun a b => a.day ≤ b.day)) ∧
    mergeSeriesByDay
        [⟨"A", [⟨1, 1⟩, ⟨2, 2⟩, ⟨3, 3⟩]⟩, ⟨"B", [⟨2, 20⟩, ⟨3, 30⟩, ⟨4, 40⟩]⟩] =
      [⟨1, [("A", 1)]⟩, ⟨2, [("A", 2), ("B", 20)]⟩, ⟨3, [("A", 3), ("B", 30)]⟩,
       ⟨4, [("B", 40)]⟩] := by
  refine ⟨merged_nodup_days, ?_, ?_, ?_, fun seriesList => pairwise_mergeSort_key MRow.day _, ?_⟩
  · intro seriesList d
    rw [← mem_days_buildDayMap]
    constructor
    · rintro ⟨r, hr, rfl⟩
      exact List.mem_map.mpr ⟨r, (mem_merged_iff seriesList r).mp hr, rfl⟩
    · intro h
      obtain ⟨r, hr, hd⟩ := List.mem_map.mp h
      exact ⟨r, (mem_merged_iff seriesList r).mpr hr, hd⟩
  · intro seriesList r hr k
    exact getF_buildDayMap seriesList r ((mem_merged_iff seriesList r).mp hr) k
  · intro seriesList r hr k
    rw [getF_buildDayMap seriesList r ((mem_merged_iff seriesList r).mp hr) k,
      lastVal_eq_events, foldl_lastWrite_isSome]
    simp only [Option.isSome_none, Bool.false_eq_true, false_or, events, List.mem_flatMap,
      List.mem_map]
    constructor
    · rintro ⟨e, ⟨s, hs, p, hp, rfl⟩, hk, hd⟩
      exact ⟨s, hs, hk, p, hp, hd⟩
    · rintro ⟨s, hs, hk, p, hp, hd⟩
      exact ⟨(s.key, p.day, p.value), ⟨s, hs, p, hp, rfl⟩, hk, hd⟩
  · unfold mergeSeriesByDay
    rw [show buildDayMap
        [⟨"A", [⟨1, 1⟩, ⟨2, 2⟩, ⟨3, 3⟩]⟩, ⟨"B", [⟨2, 20⟩, ⟨3, 30⟩, ⟨4, 40⟩]⟩] =
      [⟨1, [("A", 1)]⟩, ⟨2, [("A", 2), ("B", 20)]⟩, ⟨3, [("A", 3), ("B", 30)]⟩,
       ⟨4, [("B", 40)]⟩] by decide]
    exact List.mergeSort_of_sorted (by decide)

/-- C10: duplicate days within one series collapse to a single merged row
(days in the output are always nodup, so its length equals the number of
distinct days), the row carries the value of the last point with that day
in the series' order, and concretely merging `[(1,10), (1,20)]` under key
`A` yields the single row `{day: 1, A: 20}`. -/
theorem C10_duplicate_days :
    (∀ seriesList : List Series,
        ((mergeSeriesByDay seriesList).map MRow.day).Nodup ∧
        (mergeSeriesByDay seriesList).length =
          ((mergeSeriesByDay seriesList).map MRow.day).dedup.length) ∧
    (∀ (s : Series) (d : ℤ), (∃ p ∈ s.data, p.day = d) →
        ∃ r ∈ mergeSeriesByDay [s], r.day = d ∧
          getF r.fields s.key =
            s.data.foldl (fun acc p => if p.day = d then some p.value else acc) none) ∧
    mergeSeriesByDay [⟨"A", [⟨1, 10⟩, ⟨1, 20⟩]⟩] = [⟨1, [("A", 20)]⟩] := by
  refine ⟨?_, ?_, ?_⟩
  · intro seriesList
    refine ⟨merged_nodup_days seriesList, ?_⟩
    rw [List.Nodup.dedup (merged_nodup_days seriesList), List.length_map]
  · intro s d hp
    have hmem : d ∈ (buildDayMap [s]).map MRow.day := by
      rw [mem_days_buildDayMap]
      exact ⟨s, by simp, hp⟩
    have hperm : List.Perm (mergeSeriesByDay [s]) (buildDayMap [s]) :=
      List.mergeSort_perm _ _
    have hmem2 : d ∈ (mergeSeriesByDay [s]).map MRow.day := by
      exact ((hperm.map MRow.day).mem_iff).mpr hmem
    obtain ⟨r, hr, hd⟩ := List.mem_map.mp hmem2
    refine ⟨r, hr, hd, ?_⟩
    rw [getF_buildDayMap [s] r ((mem_merged_iff [s] r).mp hr) s.key, hd]
    unfold lastVal
    rw [List.foldl_cons, List.foldl_nil]
    have hfn : (fun (acc : Option ℚ) (p : AgePoint) =>
          if s.key = s.key ∧ p.day = d then some p.value else acc) =
        (fun (acc : Option ℚ) (p : AgePoint) =>
          if p.day = d then some p.value else acc) := by
      funext acc p
      simp
    rw [hfn]
  · unfold mergeSeriesByDay
    rw [show buildDayMap [⟨"A", [⟨1, 10⟩, ⟨1, 20⟩]⟩] = [⟨1, [("A", 20)]⟩] by decide]
    exact List.mergeSort_of_sorted (by decide)

/-- C8 witness: the field value of the merged row for day 2 in the
example join equals the last write for `(2, "B")`. -/
theorem C8_mergeByDay_witness :
    getF ((⟨2, [("A", 2), ("B", 20)]⟩ : MRow)).fields "B" =
      lastVal [⟨"A", [⟨1, 1⟩, ⟨2, 2⟩, ⟨3, 3⟩]⟩, ⟨"B", [⟨2, 20⟩, ⟨3, 30⟩, ⟨4, 40⟩]⟩]
        (⟨2, [("A", 2), ("B", 20)]⟩ : MRow).day "B" := by
  apply C8_mergeByDay.2.2.1
  rw [C8_mergeByDay.2.2.2.2.2]
  simp

/-- C10 witness: the last-write rule at the concrete duplicate-day
series. -/
theorem C10_duplicate_days_witness :
    ∃ r ∈ mergeSeriesByDay [⟨"A", [⟨1, 10⟩, ⟨1, 20⟩]⟩], r.day = 1 ∧
      getF r.fields (Series.mk "A" [⟨1, 10⟩, ⟨1, 20⟩]).key =
        ([⟨1, 10⟩, ⟨1, 20⟩] : List AgePoint).foldl
          (fun acc p => if p.day = 1 then some p.value else acc) none :=
  C10_duplicate_days.2.1 ⟨"A", [⟨1, 10⟩, ⟨1, 20⟩]⟩ 1 ⟨⟨1, 10⟩, by simp, rfl⟩

end Dashboard
